import Mathlib

/-!
# Verification of the Medit_Ceramic webhook processor (src/main.py)

This file shallowly embeds the program in `src/main.py`: a FastAPI webhook
handler that normalizes Medit scan events, keeps a bounded JSON-backed
history (`load_history` / `save_history`, bound `MAX_HISTORY_SIZE = 5`),
and a Telegram command handler `latest_scans_command`.

JSON values are modelled by a mutual inductive (`Json` / `JsonList` /
`JsonObj`) so that every recursive function over them is structurally
recursive and reduces in the kernel.  The stdlib collaborators the code
relies on are modelled faithfully where their behaviour matters to the
program: `json.dumps` with an `indent` (`dumps_indent`), `json.loads`
(`loads`), `str.replace` (`pyReplace`), `datetime.fromisoformat`
(`fromisoformat`), `datetime.isoformat(timespec='milliseconds')`
(`isoformat_ms`), and Python truthiness / `in` / indexing / `dict.get`
(`pyTruthy`, `pyContains`, `pyIndex`, `jGet`).  Floating point JSON
numbers are outside the model (the program never produces or consumes
them); the numeric grammar is integral.
-/

/-! JSON values, with an explicit list/object spine so recursion stays
structural.  Numbers are integral (the program never manipulates
non-integer JSON numbers). -/
mutual

inductive Json where
  | null : Json
  | bool : Bool → Json
  | num : Int → Json
  | str : String → Json
  | arr : JsonList → Json
  | obj : JsonObj → Json

inductive JsonList where
  | nil : JsonList
  | cons : Json → JsonList → JsonList

inductive JsonObj where
  | nil : JsonObj
  | cons : String → Json → JsonObj → JsonObj

end

/-- Convert a spine list to a Lean list. -/
def JsonList.toList : JsonList → List Json
  | .nil => []
  | .cons x xs => x :: xs.toList

/-- Convert a Lean list to a spine list. -/
def ofList : List Json → JsonList
  | [] => .nil
  | x :: xs => .cons x (ofList xs)

/-- First binding of a key in an object (Python `dict` lookup; objects
built by the program have distinct keys). -/
def jGet : JsonObj → String → Option Json
  | .nil, _ => none
  | .cons k v rest, key => if k = key then some v else jGet rest key

/-- Python `dict.get(key, default)`. -/
def jGetD (o : JsonObj) (key : String) (dflt : Json) : Json :=
  (jGet o key).getD dflt

/-- Python `key in dict`. -/
def jHasKey : JsonObj → String → Bool
  | .nil, _ => false
  | .cons k _ rest, key => if k = key then true else jHasKey rest key

/-! Python `==` between JSON values (heterogeneous comparisons are `False`;
the program only ever compares strings with list elements). -/
mutual

def jbeq : Json → Json → Bool
  | .null, .null => true
  | .bool a, .bool b => a == b
  | .num a, .num b => a == b
  | .str a, .str b => a == b
  | .arr a, .arr b => jlbeq a b
  | .obj a, .obj b => jobeq a b
  | _, _ => false

def jlbeq : JsonList → JsonList → Bool
  | .nil, .nil => true
  | .cons x xs, .cons y ys => jbeq x y && jlbeq xs ys
  | _, _ => false

def jobeq : JsonObj → JsonObj → Bool
  | .nil, .nil => true
  | .cons k v rest, .cons k2 v2 rest2 => k == k2 && jbeq v v2 && jobeq rest rest2
  | _, _ => false

end

/-- Membership of a value in a JSON array (Python `x in list`). -/
def jlContains : JsonList → Json → Bool
  | .nil, _ => false
  | .cons x xs, v => jbeq x v || jlContains xs v

/-- Python truthiness of a JSON value. -/
def pyTruthy : Json → Bool
  | .null => false
  | .bool b => b
  | .num n => decide (n ≠ 0)
  | .str s => decide (s ≠ "")
  | .arr .nil => false
  | .arr (.cons _ _) => true
  | .obj .nil => false
  | .obj (.cons _ _ _) => true

/-- Truthiness of an optional value (Python variables initialised to `None`). -/
def optTruthy : Option Json → Bool
  | none => false
  | some j => pyTruthy j

/-- The left curly brace character (written via its code point). -/
def lbrace : Char := Char.ofNat 123

/-- The right curly brace character (written via its code point). -/
def rbrace : Char := Char.ofNat 125

/-- The single-quote character, used by Python `repr` of strings. -/
def sQuote : String := String.singleton (Char.ofNat 39)

/-! Python `str()` / `repr()` of the values the program interpolates into
messages.  `pyStr` is `str()`, `pyRepr` is `repr()` (used inside
containers).  String `repr` quoting is modelled without escaping; the
program only ever renders plain names this way. -/
mutual

def pyStr : Json → String
  | .null => "None"
  | .bool b => if b then "True" else "False"
  | .num n => toString n
  | .str s => s
  | .arr xs => "[" ++ pyItems xs ++ "]"
  | .obj o => String.singleton lbrace ++ pyMembers o ++ String.singleton rbrace

def pyRepr : Json → String
  | .null => "None"
  | .bool b => if b then "True" else "False"
  | .num n => toString n
  | .str s => sQuote ++ s ++ sQuote
  | .arr xs => "[" ++ pyItems xs ++ "]"
  | .obj o => String.singleton lbrace ++ pyMembers o ++ String.singleton rbrace

def pyItems : JsonList → String
  | .nil => ""
  | .cons x .nil => pyRepr x
  | .cons x (.cons y ys) => pyRepr x ++ ", " ++ pyItems (.cons y ys)

def pyMembers : JsonObj → String
  | .nil => ""
  | .cons k v .nil => sQuote ++ k ++ sQuote ++ ": " ++ pyRepr v
  | .cons k v (.cons k2 v2 rest) =>
      sQuote ++ k ++ sQuote ++ ": " ++ pyRepr v ++ ", " ++ pyMembers (.cons k2 v2 rest)

end

/-- Hexadecimal digit characters, lowercase, as emitted by the JSON
encoder for control characters. -/
def hexDigitChar (n : Nat) : Char :=
  if n < 10 then Char.ofNat (48 + n) else Char.ofNat (87 + n)

/-- Escaping of one character by `json.dumps` with `ensure_ascii=False`:
quote, backslash and control characters are escaped, everything else is
emitted raw. -/
def escapeChar (c : Char) : List Char :=
  if c = '"' then ['\\', '"']
  else if c = '\\' then ['\\', '\\']
  else if c = '\n' then ['\\', 'n']
  else if c = '\r' then ['\\', 'r']
  else if c = '\t' then ['\\', 't']
  else if c = Char.ofNat 8 then ['\\', 'b']
  else if c = Char.ofNat 12 then ['\\', 'f']
  else if c.toNat < 32 then
    ['\\', 'u', '0', '0', hexDigitChar (c.toNat / 16), hexDigitChar (c.toNat % 16)]
  else [c]

/-- Escaping of a character sequence by the JSON encoder. -/
def escapeStr : List Char → List Char
  | [] => []
  | c :: cs => escapeChar c ++ escapeStr cs

/-- `n` space characters (indentation emitted by `json.dumps`). -/
def nSpaces (n : Nat) : List Char := List.replicate n ' '

/-! `json.dumps(..., indent=w, ensure_ascii=False)`, producing characters.
The `lvl` argument is the current nesting level.  Mirrors CPython's
indented encoder: empty containers print as `[]` and braces, non-empty
ones put every item on its own line, items separated by a comma and
newline, keys followed by a colon and one space. -/
mutual

def dumpsV (w : Nat) : Json → Nat → List Char
  | .null, _ => 'n' :: 'u' :: 'l' :: ['l']
  | .bool b, _ => if b then 't' :: 'r' :: 'u' :: ['e'] else 'f' :: 'a' :: 'l' :: 's' :: ['e']
  | .num n, _ => (toString n).data
  | .str s, _ => '"' :: (escapeStr s.data ++ ['"'])
  | .arr .nil, _ => '[' :: [']']
  | .arr (.cons x xs), lvl =>
      '[' :: '\n' :: (nSpaces ((lvl + 1) * w) ++
        (dumpsItems w (.cons x xs) (lvl + 1) ++ ('\n' :: (nSpaces (lvl * w) ++ [']']))))
  | .obj .nil, _ => lbrace :: [rbrace]
  | .obj (.cons k v rest), lvl =>
      lbrace :: '\n' :: (nSpaces ((lvl + 1) * w) ++
        (dumpsMembers w (.cons k v rest) (lvl + 1) ++ ('\n' :: (nSpaces (lvl * w) ++ [rbrace]))))

def dumpsItems (w : Nat) : JsonList → Nat → List Char
  | .nil, _ => []
  | .cons x .nil, lvl => dumpsV w x lvl
  | .cons x (.cons y ys), lvl =>
      dumpsV w x lvl ++ (',' :: '\n' :: (nSpaces (lvl * w) ++ dumpsItems w (.cons y ys) lvl))

def dumpsMembers (w : Nat) : JsonObj → Nat → List Char
  | .nil, _ => []
  | .cons k v .nil, lvl => '"' :: (escapeStr k.data ++ ('"' :: ':' :: ' ' :: dumpsV w v lvl))
  | .cons k v (.cons k2 v2 rest), lvl =>
      ('"' :: (escapeStr k.data ++ ('"' :: ':' :: ' ' :: dumpsV w v lvl))) ++
        (',' :: '\n' :: (nSpaces (lvl * w) ++ dumpsMembers w (.cons k2 v2 rest) lvl))

end

/-- `json.dumps(event, indent=2, ensure_ascii=False)` as used in the
operator notifications (lines 173 and 208). -/
def dumps2 (j : Json) : String := String.mk (dumpsV 2 j 0)

/-- JSON whitespace characters skipped by the decoder. -/
def isWsChar (c : Char) : Bool := c = ' ' || c = '\n' || c = '\t' || c = '\r'

/-- Skip leading JSON whitespace. -/
def skipWs : List Char → List Char
  | [] => []
  | c :: cs => if isWsChar c then skipWs cs else c :: cs

/-- Value of a hexadecimal digit character, if any. -/
def hexVal (c : Char) : Option Nat :=
  if 48 ≤ c.toNat ∧ c.toNat ≤ 57 then some (c.toNat - 48)
  else if 97 ≤ c.toNat ∧ c.toNat ≤ 102 then some (c.toNat - 87)
  else if 65 ≤ c.toNat ∧ c.toNat ≤ 70 then some (c.toNat - 55)
  else none

/-- Prepend a decoded character to the pending string-parse result. -/
def consFst (c : Char) : Option (List Char × List Char) → Option (List Char × List Char)
  | some (s, r) => some (c :: s, r)
  | none => none

/-! Decoding of a JSON string body (the opening quote already consumed).
`parseStringBody` returns the content and the remaining input; strict
mode: raw control characters and lone surrogate escapes are rejected.
`parseEsc` handles the character after a backslash and `parseHex4` a
`\u` escape's four hex digits. -/
mutual

def parseStringBody : List Char → Option (List Char × List Char)
  | [] => none
  | c :: cs =>
    if c = '"' then some ([], cs)
    else if c = '\\' then parseEsc cs
    else if c.toNat < 32 then none
    else consFst c (parseStringBody cs)

def parseEsc : List Char → Option (List Char × List Char)
  | [] => none
  | e :: cs2 =>
    if e = '"' then consFst '"' (parseStringBody cs2)
    else if e = '\\' then consFst '\\' (parseStringBody cs2)
    else if e = '/' then consFst '/' (parseStringBody cs2)
    else if e = 'n' then consFst '\n' (parseStringBody cs2)
    else if e = 'r' then consFst '\r' (parseStringBody cs2)
    else if e = 't' then consFst '\t' (parseStringBody cs2)
    else if e = 'b' then consFst (Char.ofNat 8) (parseStringBody cs2)
    else if e = 'f' then consFst (Char.ofNat 12) (parseStringBody cs2)
    else if e = 'u' then parseHex4 cs2
    else none

def parseHex4 : List Char → Option (List Char × List Char)
  | h1 :: h2 :: h3 :: h4 :: cs3 =>
    (match hexVal h1, hexVal h2, hexVal h3, hexVal h4 with
     | some a, some b, some c2, some d =>
       let n := ((a * 16 + b) * 16 + c2) * 16 + d
       if 55296 ≤ n ∧ n ≤ 57343 then none
       else consFst (Char.ofNat n) (parseStringBody cs3)
     | _, _, _, _ => none)
  | _ => none

end

/-- Split off a maximal run of decimal digits. -/
def takeDigitsSpan : List Char → (List Char × List Char)
  | [] => ([], [])
  | c :: r =>
    if c.isDigit then (let p := takeDigitsSpan r; (c :: p.1, p.2)) else ([], c :: r)

/-- Decimal value of a digit run. -/
def digitsVal (ds : List Char) : Nat := ds.foldl (fun a c => a * 10 + (c.toNat - 48)) 0

/-- Whether the input continues with a float/exponent part.  The model's
numeric grammar is integral: such inputs are outside the model and fail. -/
def startsFloat : List Char → Bool
  | c :: _ => c = '.' || c = 'e' || c = 'E'
  | [] => false

/-- Parse an unsigned JSON integer (no leading zeros). -/
def parseUNum : List Char → Option (Nat × List Char)
  | [] => none
  | c :: rest =>
    if c = '0' then
      match rest with
      | d :: _ => if d.isDigit || startsFloat rest then none else some (0, rest)
      | [] => some (0, [])
    else if c.isDigit then
      let p := takeDigitsSpan rest
      if startsFloat p.2 then none else some (digitsVal (c :: p.1), p.2)
    else none

/-- Parse a signed JSON integer. -/
def parseIntNum : List Char → Option (Int × List Char)
  | '-' :: rest => (parseUNum rest).map (fun p => (-(p.1 : Int), p.2))
  | cs => (parseUNum cs).map (fun p => ((p.1 : Int), p.2))

/-- Insert a binding as Python `dict` assignment does while decoding: a
duplicate key keeps its original position and takes the new value. -/
def insertKey : JsonObj → String → Json → JsonObj
  | .nil, k, v => .cons k v .nil
  | .cons k0 v0 rest, k, v =>
      if k0 = k then .cons k0 v rest else .cons k0 v0 (insertKey rest k v)

/-! The recursive-descent JSON decoder (`json.loads`).  The fuel argument
only bounds recursion depth; `loads` supplies more fuel than any input
can consume. -/
mutual

def parseValue : Nat → List Char → Option (Json × List Char)
  | 0, _ => none
  | fuel + 1, cs =>
    match skipWs cs with
    | [] => none
    | c :: rest =>
      if c = '"' then
        match parseStringBody rest with
        | some (s, r) => some (.str (String.mk s), r)
        | none => none
      else if c = lbrace then
        match skipWs rest with
        | c2 :: r2 =>
          if c2 = rbrace then some (.obj .nil, r2) else parseMembers fuel .nil rest
        | [] => none
      else if c = '[' then
        match skipWs rest with
        | c2 :: r2 =>
          if c2 = ']' then some (.arr .nil, r2) else
            match parseItems fuel rest with
            | some (vs, r3) => some (.arr vs, r3)
            | none => none
        | [] => none
      else if c = 't' then
        match rest with
        | 'r' :: 'u' :: 'e' :: r => some (.bool true, r)
        | _ => none
      else if c = 'f' then
        match rest with
        | 'a' :: 'l' :: 's' :: 'e' :: r => some (.bool false, r)
        | _ => none
      else if c = 'n' then
        match rest with
        | 'u' :: 'l' :: 'l' :: r => some (.null, r)
        | _ => none
      else if c = '-' || c.isDigit then
        match parseIntNum (c :: rest) with
        | some (n, r) => some (.num n, r)
        | none => none
      else none

def parseItems : Nat → List Char → Option (JsonList × List Char)
  | 0, _ => none
  | fuel + 1, cs =>
    match parseValue fuel cs with
    | some (v, r) =>
      match skipWs r with
      | ch :: r2 =>
        if ch = ',' then
          match parseItems fuel r2 with
          | some (vs, r3) => some (.cons v vs, r3)
          | none => none
        else if ch = ']' then some (.cons v .nil, r2)
        else none
      | [] => none
    | none => none

def parseMembers : Nat → JsonObj → List Char → Option (Json × List Char)
  | 0, _, _ => none
  | fuel + 1, acc, cs =>
    match skipWs cs with
    | c :: rest =>
      if c = '"' then
        match parseStringBody rest with
        | some (k, r2) =>
          match skipWs r2 with
          | c2 :: r3 =>
            if c2 = ':' then
              match parseValue fuel r3 with
              | some (v, r4) =>
                match skipWs r4 with
                | c3 :: r5 =>
                  if c3 = ',' then parseMembers fuel (insertKey acc (String.mk k) v) r5
                  else if c3 = rbrace then some (.obj (insertKey acc (String.mk k) v), r5)
                  else none
                | [] => none
              | none => none
            else none
          | [] => none
        | none => none
      else none
    | [] => none

end

/-- `json.loads`: decode one JSON document; trailing non-whitespace input
is an error. -/
def loads (s : String) : Option Json :=
  match parseValue (s.data.length + 1) s.data with
  | some (j, r) =>
    match skipWs r with
    | [] => some j
    | _ :: _ => none
  | none => none

/-- Replace every non-overlapping occurrence of `pat`, left to right
(worker of `pyReplace`; the fuel is an upper bound on the scan length). -/
def replaceC (pat rep : List Char) : Nat → List Char → List Char
  | 0, cs => cs
  | _ + 1, [] => []
  | n + 1, c :: cs =>
    if pat.isPrefixOf (c :: cs) then
      rep ++ replaceC pat rep n (List.drop (pat.length - 1) cs)
    else c :: replaceC pat rep n cs

/-- Python `str.replace` (the program only uses non-empty patterns). -/
def pyReplace (s pat rep : String) : String :=
  if pat = "" then s
  else String.mk (replaceC pat.data rep.data s.data.length s.data)

/-- An aware or naive `datetime` value (`offsetMinutes = none` means naive). -/
structure PyDateTime where
  year : Nat
  month : Nat
  day : Nat
  hour : Nat
  minute : Nat
  second : Nat
  microsecond : Nat
  offsetMinutes : Option Int
deriving DecidableEq

/-- Gregorian leap year test. -/
def isLeapYear (y : Nat) : Bool :=
  y % 4 = 0 && (y % 100 ≠ 0 || y % 400 = 0)

/-- Days in a month of a given year. -/
def daysInMonth (y m : Nat) : Nat :=
  if m = 2 then (if isLeapYear y then 29 else 28)
  else if m = 4 ∨ m = 6 ∨ m = 9 ∨ m = 11 then 30
  else 31

/-- Read exactly `n` decimal digits, most significant first. -/
def readDigitsAcc : Nat → Nat → List Char → Option (Nat × List Char)
  | 0, acc, cs => some (acc, cs)
  | _ + 1, _, [] => none
  | n + 1, acc, c :: cs =>
      if c.isDigit then readDigitsAcc n (acc * 10 + (c.toNat - 48)) cs else none

/-- Fractional seconds after the dot: one to six digits, scaled to
microseconds (as `datetime.fromisoformat` accepts). -/
def parseFrac (cs : List Char) : Option (Nat × List Char) :=
  let p := takeDigitsSpan cs
  let k := p.1.length
  if 1 ≤ k ∧ k ≤ 6 then some (digitsVal p.1 * 10 ^ (6 - k), p.2) else none

/-- Optional trailing UTC offset `±HH:MM`; anything after it (or any other
trailing input) makes the whole parse fail, as in `fromisoformat`. -/
def withOffset (y mo d hh mi ss us : Nat) (cs : List Char) : Option PyDateTime :=
  match cs with
  | [] => some ⟨y, mo, d, hh, mi, ss, us, none⟩
  | c :: rest =>
    if c = '+' ∨ c = '-' then
      match readDigitsAcc 2 0 rest with
      | some (oh, r1) =>
        match r1 with
        | ':' :: r2 =>
          match readDigitsAcc 2 0 r2 with
          | some (om, r3) =>
            if oh < 24 ∧ om < 60 ∧ r3 = [] then
              some ⟨y, mo, d, hh, mi, ss, us,
                some (if c = '-' then -((oh * 60 + om : Nat) : Int) else ((oh * 60 + om : Nat) : Int))⟩
            else none
          | none => none
        | _ => none
      | none => none
    else none

/-- Time-of-day part of `fromisoformat` (`HH:MM[:SS[.ffffff]][±HH:MM]`). -/
def parseTimeTail (y mo d : Nat) (cs : List Char) : Option PyDateTime :=
  match readDigitsAcc 2 0 cs with
  | some (hh, r1) =>
    match r1 with
    | ':' :: r2 =>
      match readDigitsAcc 2 0 r2 with
      | some (mi, r3) =>
        if hh < 24 ∧ mi < 60 then
          match r3 with
          | ':' :: r4 =>
            match readDigitsAcc 2 0 r4 with
            | some (ss, r5) =>
              if ss < 60 then
                match r5 with
                | '.' :: r6 =>
                  match parseFrac r6 with
                  | some (us, r7) => withOffset y mo d hh mi ss us r7
                  | none => none
                | _ => withOffset y mo d hh mi ss 0 r5
              else none
            | none => none
          | _ => withOffset y mo d hh mi 0 0 r3
        else none
      | none => none
    | _ => none
  | none => none

/-- `datetime.fromisoformat` on characters: `YYYY-MM-DD` with a calendar
validity check, optionally a one-character separator and a time of day. -/
def fromisoformatC (cs : List Char) : Option PyDateTime :=
  match readDigitsAcc 4 0 cs with
  | some (y, r1) =>
    match r1 with
    | '-' :: r2 =>
      match readDigitsAcc 2 0 r2 with
      | some (mo, r3) =>
        match r3 with
        | '-' :: r4 =>
          match readDigitsAcc 2 0 r4 with
          | some (d, r5) =>
            if 1 ≤ y ∧ 1 ≤ mo ∧ mo ≤ 12 ∧ 1 ≤ d ∧ d ≤ daysInMonth y mo then
              match r5 with
              | [] => some ⟨y, mo, d, 0, 0, 0, 0, none⟩
              | _ :: r6 => parseTimeTail y mo d r6
            else none
          | none => none
        | _ => none
      | none => none
    | _ => none
  | none => none

/-- `datetime.fromisoformat` on a string. -/
def fromisoformat (s : String) : Option PyDateTime := fromisoformatC s.data

/-- Days since 0000-03-01 of a Gregorian date (civil-to-days conversion). -/
def daysFromCivil (y m d : Nat) : Nat :=
  let yAdj := if m ≤ 2 then y - 1 else y
  let era := yAdj / 400
  let yoe := yAdj % 400
  let mp := if 2 < m then m - 3 else m + 9
  let doy := (153 * mp + 2) / 5 + d - 1
  let doe := yoe * 365 + yoe / 4 - yoe / 100 + doy
  era * 146097 + doe

/-- Gregorian date from days since 0000-03-01 (days-to-civil conversion). -/
def civilFromDays (z : Nat) : Nat × Nat × Nat :=
  let era := z / 146097
  let doe := z % 146097
  let yoe := (doe - doe / 1460 + doe / 36524 - doe / 146096) / 365
  let y := yoe + era * 400
  let doy := doe - (365 * yoe + yoe / 4 - yoe / 100)
  let mp := (5 * doy + 2) / 153
  let d := doy - (153 * mp + 2) / 5 + 1
  let m := if mp < 10 then mp + 3 else mp - 9
  (if m ≤ 2 then y + 1 else y, m, d)

/-- `datetime.astimezone(local)` where the local zone is `tz` minutes from
UTC: an aware value is shifted by `tz` minus its own offset; a naive value
is interpreted as local time and is unchanged apart from gaining `tz`. -/
def astimezoneTo (dt : PyDateTime) (tz : Int) : PyDateTime :=
  let off := dt.offsetMinutes.getD tz
  let total : Int :=
    ((daysFromCivil dt.year dt.month dt.day : Nat) : Int) * 1440 +
      (dt.hour : Int) * 60 + (dt.minute : Int) + (tz - off)
  let t := total.toNat
  let days := t / 1440
  let rem := t % 1440
  let c := civilFromDays days
  ⟨c.1, c.2.1, c.2.2, rem / 60, rem % 60, dt.second, dt.microsecond, some tz⟩

/-- Zero-padded two-digit decimal. -/
def pad2 (n : Nat) : String := if n < 10 then "0" ++ toString n else toString n

/-- Zero-padded three-digit decimal. -/
def pad3 (n : Nat) : String :=
  if n < 10 then "00" ++ toString n else if n < 100 then "0" ++ toString n else toString n

/-- Zero-padded four-digit decimal. -/
def pad4 (n : Nat) : String :=
  if n < 1000 then "0" ++ pad3 n else toString n

/-- `strftime('%Y-%m-%d %H:%M:%S')`. -/
def strftime_ymd_hms (dt : PyDateTime) : String :=
  pad4 dt.year ++ "-" ++ pad2 dt.month ++ "-" ++ pad2 dt.day ++ " " ++
    pad2 dt.hour ++ ":" ++ pad2 dt.minute ++ ":" ++ pad2 dt.second

/-- The local-time rendering used at lines 76-77 and 139/166:
`astimezone` to the local zone followed by `strftime`. -/
def strftimeLocal (dt : PyDateTime) (tz : Int) : String :=
  strftime_ymd_hms (astimezoneTo dt tz)

/-- `utcoffset` rendering inside `isoformat`: `±HH:MM`. -/
def offsetStr (o : Int) : String :=
  (if o < 0 then "-" else "+") ++ pad2 (o.natAbs / 60) ++ ":" ++ pad2 (o.natAbs % 60)

/-- `datetime.isoformat(timespec='milliseconds')`: for an aware value the
UTC offset is appended after the milliseconds. -/
def isoformat_ms (dt : PyDateTime) : String :=
  pad4 dt.year ++ "-" ++ pad2 dt.month ++ "-" ++ pad2 dt.day ++ "T" ++
    pad2 dt.hour ++ ":" ++ pad2 dt.minute ++ ":" ++ pad2 dt.second ++ "." ++
    pad3 (dt.microsecond / 1000) ++
    (match dt.offsetMinutes with
     | none => ""
     | some o => offsetStr o)

/-- Line 117: `datetime.now(timezone.utc).isoformat(timespec='milliseconds') + 'Z'`,
the capture-time fallback string.  Note the appended `'Z'` lands after the
`+00:00` offset that `isoformat` already printed. -/
def nowIso (now : PyDateTime) : String := isoformat_ms now ++ "Z"

/-- State of the backing history file `scan_history.json`: absent, or
holding some text. -/
inductive FileState where
  | missing : FileState
  | holds : String → FileState
deriving DecidableEq

/-- Line 28: the history bound. -/
def MAX_HISTORY_SIZE : Nat := 5

/-- Lines 31-39, `load_history`: missing file gives the empty list; a file
whose contents fail to decode gives the empty list and logs a decode
error (the `Bool` component; `true` iff the warning was emitted).  A file
that decodes returns exactly the decoded JSON value. -/
def load_history : FileState → Json × Bool
  | .missing => (.arr .nil, false)
  | .holds s =>
    match loads s with
    | some j => (j, false)
    | none => (.arr .nil, true)

/-- Lines 41-46, `save_history`: serialise the list with
`json.dump(history, f, indent=4, ensure_ascii=False)`; the new file text. -/
def save_history (history : List Json) : String :=
  String.mk (dumpsV 4 (.arr (ofList history)) 0)

/-- Substring test on character lists (Python `needle in string`). -/
def containsSub (needle : List Char) : List Char → Bool
  | [] => needle.isEmpty
  | c :: t => needle.isPrefixOf (c :: t) || containsSub needle t

/-- Python `key in value` for the shapes `value` can take: key membership
for dicts, element membership for lists, substring test for strings, and
a `TypeError` for non-iterable values. -/
def pyContains (j : Json) (k : String) : Except String Bool :=
  match j with
  | .obj o => .ok (jHasKey o k)
  | .arr xs => .ok (jlContains xs (.str k))
  | .str s => .ok (containsSub k.data s.data)
  | _ => .error "TypeError: argument is not iterable"

/-- Python `value[key]` with a string key: dict lookup, `TypeError` on
anything else (including strings and lists). -/
def pyIndex (j : Json) (k : String) : Except String Json :=
  match j with
  | .obj o =>
    match jGet o k with
    | some v => .ok v
    | none => .error ("KeyError: " ++ k)
  | _ => .error "TypeError: value is not subscriptable with a string"

/-- Lines 121-122 / 142-146 shape sniffing: `'case' in event and
isinstance(event['case'], dict)` — `ok (some o)` when the branch is
taken, `ok none` when the condition is false, `error` when evaluating the
condition itself raises. -/
def caseShape (event : Json) (key : String) : Except String (Option JsonObj) :=
  match pyContains event key with
  | .error e => .error e
  | .ok false => .ok none
  | .ok true =>
    match pyIndex event key with
    | .error e => .error e
    | .ok (.obj o) => .ok (some o)
    | .ok _ => .ok none

/-- Lines 123-128: `case_data.get('name')` and the patient name from a
dict-valued `patient` field. -/
def casePatientName (cd : JsonObj) : Option Json :=
  match jGet cd "patient" with
  | some (.obj p) => jGet p "name"
  | _ => none

/-- Lines 131-134: prefer a truthy `dateScanned`, then a truthy
`dateCreated`, else the capture-time fallback of line 117. -/
def caseOccurredAt (cd : JsonObj) (now : PyDateTime) : Json :=
  if pyTruthy (jGetD cd "dateScanned" .null) then jGetD cd "dateScanned" .null
  else if pyTruthy (jGetD cd "dateCreated" .null) then jGetD cd "dateCreated" .null
  else .str (nowIso now)

/-- Lines 158-159: an order event prefers a truthy `dateCreated`, else the
capture-time fallback. -/
def orderOccurredAt (od : JsonObj) (now : PyDateTime) : Json :=
  if pyTruthy (jGetD od "dateCreated" .null) then jGetD od "dateCreated" .null
  else .str (nowIso now)

/-- Lines 75-76 / 139 / 166: `datetime.fromisoformat(x.replace('Z','+00:00'))`
rendered in the local zone.  A non-string raises `AttributeError`
(`.replace`), an unparseable string raises `ValueError`. -/
def formatLocalTime (j : Json) (tz : Int) : Except String String :=
  match j with
  | .str s =>
    match fromisoformat (pyReplace s "Z" "+00:00") with
    | some dt => .ok (strftimeLocal dt tz)
    | none =>
      .error ("ValueError: Invalid isoformat string: " ++ sQuote ++
        pyReplace s "Z" "+00:00" ++ sQuote)
  | _ => .error "AttributeError: replace"

/-- The `{x if x else 'Невідомий'}` interpolations of lines 136-137 and
163-164. -/
def optDisp (o : Option Json) : String :=
  match o with
  | some j => if pyTruthy j then pyStr j else "Невідомий"
  | none => "Невідомий"

/-- Lines 181-187: prepend the new entry, then truncate to
`MAX_HISTORY_SIZE` when the bound is exceeded. -/
def record_mutation (e : Json) (history : List Json) : List Json :=
  let h2 := e :: history
  if MAX_HISTORY_SIZE < h2.length then h2.take MAX_HISTORY_SIZE else h2

/-- Lines 181-185: the dict stored in history. -/
def mkEntry (case_name patient_name : Option Json) (occurred_at : Json) : Json :=
  .obj (.cons "caseName" (case_name.getD .null)
    (.cons "patientName" (patient_name.getD .null)
      (.cons "occurredAt" occurred_at .nil)))

/-- Line 173: the unrecognised-event operator notification, embedding the
pretty-printed raw payload. -/
def unrecText (event : Json) : String :=
  "⚠️ **Увага:** Отримано нерозпізнану подію Medit.\n\n`" ++ dumps2 event ++ "`"

/-- Line 208: the error notification, embedding the failure detail and the
pretty-printed raw payload. -/
def errText (event : Json) (e : String) : String :=
  "❌ **Помилка при обробці вебхука Medit:**\n`" ++ e ++ "`\n\n**Подія:**\n`" ++
    dumps2 event ++ "`"

/-- The detail carried by a failed Telegram send. -/
def telegramErr : String := "TelegramError: send_message failed"

/-- Result of one webhook request: the response produced (or the exception
that escaped), the file state afterwards, and the chat messages actually
delivered, in order. -/
inductive WebhookOutcome where
  | success : WebhookOutcome
  | unrecognized : WebhookOutcome
  | httpError : String → WebhookOutcome
  | uncaughtRaise : String → WebhookOutcome
deriving DecidableEq

/-- Observable effect of one call of the webhook handler. -/
structure WebhookResult where
  outcome : WebhookOutcome
  fileAfter : FileState
  sent : List String
deriving DecidableEq

/-- Lines 202-211, the `except` block: send the error notification (if the
send itself fails the new exception propagates out of the handler,
nothing is delivered), then raise `HTTPException(500)`. -/
def exceptPath (event : Json) (e : String) (fs : FileState) (sent : List String)
    (sendFails : Bool) : WebhookResult :=
  if sendFails then ⟨.uncaughtRaise telegramErr, fs, sent⟩
  else ⟨.httpError ("Internal server error: " ++ e), fs, sent ++ [errText event e]⟩

/-- Lines 179-197: store the entry when `case_name` is truthy (prepend,
truncate, save, then send the success message); otherwise only log. -/
def recordAndNotify (event : Json) (case_name patient_name : Option Json)
    (occurred_at : Json) (msg : String) (fs : FileState) (sendFails : Bool) :
    WebhookResult :=
  if optTruthy case_name then
    match (load_history fs).1 with
    | .arr jl =>
      let newList := record_mutation (mkEntry case_name patient_name occurred_at) jl.toList
      let fs2 := FileState.holds (save_history newList)
      if sendFails then exceptPath event telegramErr fs2 [] sendFails
      else ⟨.success, fs2, ["✅ " ++ msg]⟩
    | _ => exceptPath event "AttributeError: insert" fs [] sendFails
  else ⟨.success, fs, []⟩

/-- Lines 121-139, branch 1 (bare case): extract names, pick `occurred_at`,
build the notification text (whose time rendering can raise), then store
and notify. -/
def caseBranch (event : Json) (cd : JsonObj) (now : PyDateTime) (tz : Int)
    (fs : FileState) (sendFails : Bool) : WebhookResult :=
  let case_name := jGet cd "name"
  let patient_name := casePatientName cd
  let occurred_at := caseOccurredAt cd now
  match formatLocalTime occurred_at tz with
  | .error e => exceptPath event e fs [] sendFails
  | .ok tm =>
    let msg := "Новий кейс: **" ++ optDisp case_name ++ "**\n" ++
      "Пацієнт: " ++ optDisp patient_name ++ "\n" ++
      "Статус: " ++ pyStr (jGetD cd "status" (.str "Невідомий")) ++ "\n" ++
      "Час: " ++ tm
    recordAndNotify event case_name patient_name occurred_at msg fs sendFails

/-- Lines 146-152: the case name / patient name nested inside an order. -/
def orderCaseName (od : JsonObj) : Option Json :=
  match jGet od "case" with
  | some (.obj c) => jGet c "name"
  | _ => none

/-- Nested patient name of an order's case. -/
def orderPatientName (od : JsonObj) : Option Json :=
  match jGet od "case" with
  | some (.obj c) => casePatientName c
  | _ => none

/-- Line 155: `order_data.get('seller', {}).get('name', 'N/A')` — raises
`AttributeError` when the stored `seller` value is not a dict. -/
def sellerName (od : JsonObj) : Except String String :=
  match jGetD od "seller" (.obj .nil) with
  | .obj s => .ok (pyStr (jGetD s "name" (.str "N/A")))
  | _ => .error "AttributeError: get"

/-- Lines 142-166, branch 2 (order-wrapped case). -/
def orderBranch (event : Json) (od : JsonObj) (now : PyDateTime) (tz : Int)
    (fs : FileState) (sendFails : Bool) : WebhookResult :=
  let case_name := orderCaseName od
  let patient_name := orderPatientName od
  match sellerName od with
  | .error e => exceptPath event e fs [] sendFails
  | .ok sn =>
    let occurred_at := orderOccurredAt od now
    match formatLocalTime occurred_at tz with
    | .error e => exceptPath event e fs [] sendFails
    | .ok tm =>
      let msg := "Нове замовлення №`" ++ pyStr (jGetD od "orderNumber" (.str "N/A")) ++
        "`\n" ++ "Від: `" ++ sn ++ "`\n" ++
        "Кейс: **" ++ optDisp case_name ++ "**\n" ++
        "Пацієнт: " ++ optDisp patient_name ++ "\n" ++
        "Статус замовлення: " ++ pyStr (jGetD od "status" (.str "Невідомий")) ++ "\n" ++
        "Час: " ++ tm
      recordAndNotify event case_name patient_name occurred_at msg fs sendFails

/-- Lines 110-211, `handle_medit_webhook`, for an already-parsed request
body `event`.  `now` is the UTC receipt time, `tz` the server's local
zone in minutes, `fs` the history file, and `sendFails` makes every
Telegram send raise (the bot being unreachable). -/
def handle_medit_webhook (event : Json) (now : PyDateTime) (tz : Int)
    (fs : FileState) (sendFails : Bool) : WebhookResult :=
  match caseShape event "case" with
  | .error e => exceptPath event e fs [] sendFails
  | .ok (some cd) => caseBranch event cd now tz fs sendFails
  | .ok none =>
    match caseShape event "order" with
    | .error e => exceptPath event e fs [] sendFails
    | .ok (some od) => orderBranch event od now tz fs sendFails
    | .ok none =>
      if sendFails then exceptPath event telegramErr fs [] sendFails
      else ⟨.unrecognized, fs, [unrecText event]⟩

/-- Line 56: the refusal reply for a non-authorized chat. -/
def refusalText : String := "Ця команда доступна тільки в авторизованому чаті."

/-- Line 62: the empty-history reply. -/
def emptyHistoryText : String := "Історія сканів поки що порожня."

/-- Line 65: the listing headline. -/
def listingHeader : String := "<b>Останні 5 отриманих сканів:</b>\n"

/-- Lines 81-85: one listing line for entry number `i`. -/
def listingLine (i : Nat) (cn pn : Json) (t : String) : String :=
  toString i ++ ". <b>" ++ pyStr cn ++ "</b>\n" ++
    "   Пацієнт: " ++ pyStr pn ++ "\n" ++
    "   Час: " ++ t ++ "\n"

/-- Lines 67-79: the formatted time of one history entry.  A missing or
falsy `occurredAt` and a string failing to parse both degrade to the
placeholder; a truthy non-string raises `AttributeError` (only
`ValueError` is caught locally). -/
def scanFormattedDate (scan : JsonObj) (tz : Int) : Except String String :=
  match jGet scan "occurredAt" with
  | none => .ok "Невідомий час"
  | some v =>
    if pyTruthy v then
      match v with
      | .str s =>
        match fromisoformat (pyReplace s "Z" "+00:00") with
        | some dt => .ok (strftimeLocal dt tz)
        | none => .ok "Невідомий час"
      | _ => .error "AttributeError: replace"
    else .ok "Невідомий час"

/-- Lines 66-85: format the history entries, numbering from `i`.  A
non-dict entry raises (`AttributeError` on `.get`). -/
def formatScans (tz : Int) : List Json → Nat → Except String (List String)
  | [], _ => .ok []
  | scan :: rest, i =>
    match scan with
    | .obj o =>
      match scanFormattedDate o tz with
      | .error e => .error e
      | .ok t =>
        match formatScans tz rest (i + 1) with
        | .error e => .error e
        | .ok ls =>
          .ok (listingLine i (jGetD o "caseName" (.str "Невідомий кейс"))
            (jGetD o "patientName" (.str "Невідомий пацієнт")) t :: ls)
    | _ => .error "AttributeError: get"

/-- Observable effect of one invocation of the `latest` command:
the replies sent, whether the history file was read, an exception that
escaped the handler (if any), and the file afterwards. -/
structure CmdResult where
  replies : List String
  storageRead : Bool
  raised : Option String
  fileAfter : FileState
deriving DecidableEq

/-- Lines 54-87, `latest_scans_command`.  `chatId` is
`str(update.effective_chat.id)` and `admin` is `str(ADMIN_CHAT_ID)`. -/
def latest_scans_command (chatId admin : String) (fs : FileState) (tz : Int) :
    CmdResult :=
  if chatId = admin then
    let history := (load_history fs).1
    if pyTruthy history = false then ⟨[emptyHistoryText], true, none, fs⟩
    else
      match history with
      | .arr jl =>
        match formatScans tz jl.toList 1 with
        | .ok ls => ⟨[String.intercalate "\n" (listingHeader :: ls)], true, none, fs⟩
        | .error e => ⟨[], true, some e, fs⟩
      | _ => ⟨[], true, some "TypeError: iteration over a non-list", fs⟩
  else ⟨[refusalText], false, none, fs⟩

/-- Run a sequence of webhook deliveries (all sends succeeding), threading
the history file. -/
def runWebhooks (now : PyDateTime) (tz : Int) : List Json → FileState → FileState
  | [], fs => fs
  | e :: es, fs => runWebhooks now tz es (handle_medit_webhook e now tz fs false).fileAfter

/-- A typed history entry as described by the persistence layout:
string `caseName` and `occurredAt`, optional `patientName`. -/
structure HistEntry where
  caseName : String
  patientName : Option String
  occurredAt : String

/-- A `HistEntry` as the JSON dict the program stores (absent patient is
stored as `null`). -/
def encodeEntry (e : HistEntry) : Json :=
  mkEntry (some (.str e.caseName)) (e.patientName.map .str) (.str e.occurredAt)

/-- Characters of one history entry as serialised inside the history file
(nesting level 1, indent 4). -/
def entryChars (e : HistEntry) : List Char := dumpsV 4 (encodeEntry e) 1

/-- Characters of one serialised object member: quoted key, colon, space,
then the value's characters. -/
def memberChars (k : String) (vchars : List Char) : List Char :=
  '"' :: (escapeStr k.data ++ ('"' :: ':' :: ' ' :: vchars))

/-- A UTC receipt instant used by the concrete scenarios:
2024-06-01 10:00:00.000 UTC. -/
def now2024 : PyDateTime := ⟨2024, 6, 1, 10, 0, 0, 0, some 0⟩

/-- Scenario A's payload exactly as the spec writes it: `dateScanned` is a
top-level field, a sibling of `case`. -/
def payloadA : Json :=
  .obj (.cons "case"
    (.obj (.cons "name" (.str "Case1")
      (.cons "patient" (.obj (.cons "name" (.str "John") .nil)) .nil)))
    (.cons "dateScanned" (.str "2024-01-01T10:00:00Z") .nil))

/-- Scenario A's payload with `dateScanned` inside the `case` object —
the field the code actually reads (line 131). -/
def payloadA_nested : Json :=
  .obj (.cons "case"
    (.obj (.cons "name" (.str "Case1")
      (.cons "patient" (.obj (.cons "name" (.str "John") .nil))
        (.cons "dateScanned" (.str "2024-01-01T10:00:00Z") .nil)))) .nil)

/-- The entry scenario A expects to be recorded. -/
def entryA : Json :=
  mkEntry (some (.str "Case1")) (some (.str "John")) (.str "2024-01-01T10:00:00Z")

/-- A bare-case payload with an unparseable `dateScanned`. -/
def payloadBadTs : Json :=
  .obj (.cons "case"
    (.obj (.cons "name" (.str "C") (.cons "dateScanned" (.str "garbage") .nil))) .nil)

/-- A bare-case payload supplying none of the recognised date fields. -/
def payloadNoDates : Json :=
  .obj (.cons "case" (.obj (.cons "name" (.str "A") .nil)) .nil)

/-- A bare-case payload whose case object has no name (and a valid
timestamp, so formatting succeeds). -/
def payloadNameless : Json :=
  .obj (.cons "case"
    (.obj (.cons "dateScanned" (.str "2024-01-01T10:00:00Z") .nil)) .nil)

/-- A bare-case payload for scenario D, named and carrying a valid scan
timestamp. -/
def bareCase (name date : String) : Json :=
  .obj (.cons "case"
    (.obj (.cons "name" (.str name) (.cons "dateScanned" (.str date) .nil))) .nil)

/-- Scenario D: six consecutive bare-case webhooks with distinct names. -/
def sixEvents : List Json :=
  [bareCase "Case1" "2024-01-01T10:00:00Z", bareCase "Case2" "2024-01-02T10:00:00Z",
   bareCase "Case3" "2024-01-03T10:00:00Z", bareCase "Case4" "2024-01-04T10:00:00Z",
   bareCase "Case5" "2024-01-05T10:00:00Z", bareCase "Case6" "2024-01-06T10:00:00Z"]

/-- The entry recorded for one scenario D webhook. -/
def entryD (name date : String) : Json := mkEntry (some (.str name)) none (.str date)

theorem record_mutation_eq_take (e : Json) (h : List Json) :
    record_mutation e h = (e :: h).take 5 := by
  unfold record_mutation MAX_HISTORY_SIZE
  by_cases hl : 5 < (e :: h).length
  · simp [hl]
  · simp only [hl, if_false]
    exact (List.take_of_length_le (by omega)).symm

theorem take_append_take (l m : List Json) :
    (l ++ m.take 5).take 5 = (l ++ m).take 5 := by
  rw [List.take_append_eq_append_take, List.take_append_eq_append_take, List.take_take,
    Nat.min_eq_left (Nat.sub_le 5 l.length)]

theorem foldl_record (es : List Json) : ∀ acc : List Json, acc.length ≤ 5 →
    List.foldl (fun h e => record_mutation e h) acc es = (es.reverse ++ acc).take 5 := by
  induction es with
  | nil =>
    intro acc hacc
    simp [List.take_of_length_le hacc]
  | cons e es ih =>
    intro acc hacc
    rw [List.foldl_cons, record_mutation_eq_take,
      ih ((e :: acc).take 5) (by simp [List.length_take]),
      take_append_take, List.reverse_cons, List.append_assoc]
    simp

theorem head?_take5 (l : List Json) : (l.take 5).head? = l.head? := by
  cases l <;> rfl

set_option maxRecDepth 100000 in
/-- C3: after any sequence of N recordable webhook events (N ≥ 0) starting
from an empty history, the history equals the events' entries newest
first truncated to the bound: its length is min(N, 5) and its first
element is the most recently recorded event; and six consecutive distinct
bare-case webhooks leave exactly the entries named Case6..Case2, newest
first, in the history file (Case1 evicted). -/
theorem C3_bounded_history :
    (∀ es : List Json,
      List.foldl (fun h e => record_mutation e h) [] es =
        es.reverse.take MAX_HISTORY_SIZE ∧
      (List.foldl (fun h e => record_mutation e h) [] es).length =
        min es.length MAX_HISTORY_SIZE ∧
      (List.foldl (fun h e => record_mutation e h) [] es).head? = es.getLast?) ∧
    (load_history (runWebhooks now2024 0 sixEvents .missing)).1 =
      .arr (ofList
        [entryD "Case6" "2024-01-06T10:00:00Z", entryD "Case5" "2024-01-05T10:00:00Z",
         entryD "Case4" "2024-01-04T10:00:00Z", entryD "Case3" "2024-01-03T10:00:00Z",
         entryD "Case2" "2024-01-02T10:00:00Z"]) := by
  constructor
  · intro es
    have h1 : List.foldl (fun h e => record_mutation e h) [] es =
        es.reverse.take MAX_HISTORY_SIZE := by
      have := foldl_record es [] (by simp)
      simpa [MAX_HISTORY_SIZE] using this
    refine ⟨h1, ?_, ?_⟩
    · rw [h1]
      simp [List.length_take, MAX_HISTORY_SIZE, Nat.min_comm]
    · rw [h1]
      show (es.reverse.take 5).head? = _
      rw [head?_take5, List.head?_reverse]
  · rfl

set_option maxRecDepth 100000 in
/-- C1 counterexample: for the payload of scenario A, with `dateScanned`
at top level as the claim writes it, processing records nothing at all —
the capture-time fallback is used instead of the top-level `dateScanned`,
and formatting that fallback raises, so the handler takes the error path,
the file is untouched and an empty history is read back. -/
theorem C1_counterexample :
    (handle_medit_webhook payloadA now2024 0 .missing false).fileAfter =
      FileState.missing ∧
    (handle_medit_webhook payloadA now2024 0 .missing false).outcome =
      WebhookOutcome.httpError ("Internal server error: ValueError: Invalid isoformat string: " ++
        sQuote ++ "2024-06-01T10:00:00.000+00:00+00:00" ++ sQuote) ∧
    (load_history (handle_medit_webhook payloadA now2024 0 .missing false).fileAfter).1 =
      Json.arr .nil :=
  ⟨rfl, rfl, rfl⟩

set_option maxRecDepth 100000 in
/-- C1 amended: with `dateScanned` inside the `case` object (the field the
code reads at line 131), processing succeeds and records exactly the
entry `caseName = "Case1"`, `patientName = "John"`,
`occurredAt = "2024-01-01T10:00:00Z"`. -/
theorem C1_amended_recorded :
    (handle_medit_webhook payloadA_nested now2024 0 .missing false).outcome =
      WebhookOutcome.success ∧
    (handle_medit_webhook payloadA_nested now2024 0 .missing false).fileAfter =
      FileState.holds (save_history [entryA]) ∧
    (load_history (handle_medit_webhook payloadA_nested now2024 0 .missing false).fileAfter).1 =
      Json.arr (.cons entryA .nil) :=
  ⟨rfl, rfl, rfl⟩

set_option maxRecDepth 100000 in
/-- C2 counterexample: a bare-case payload whose `dateScanned` is the
unparseable string "garbage" is not recorded and does not merely degrade
its display: the webhook handler aborts into the error path (HTTP 500),
leaving the history file untouched. -/
theorem C2_counterexample :
    (handle_medit_webhook payloadBadTs now2024 0 .missing false).outcome =
      WebhookOutcome.httpError ("Internal server error: ValueError: Invalid isoformat string: " ++
        sQuote ++ "garbage" ++ sQuote) ∧
    (handle_medit_webhook payloadBadTs now2024 0 .missing false).fileAfter =
      FileState.missing ∧
    (handle_medit_webhook payloadBadTs now2024 0 .missing false).sent =
      [errText payloadBadTs ("ValueError: Invalid isoformat string: " ++
        sQuote ++ "garbage" ++ sQuote)] :=
  ⟨rfl, rfl, rfl⟩

set_option maxRecDepth 100000 in
/-- C6 counterexample: on an uncaught processing failure the handler does
not answer with a success-shaped response — it raises
`HTTPException(500)` — and when the error notification itself fails, that
failure is not swallowed: it propagates out of the handler with nothing
delivered. -/
theorem C6_counterexample :
    (handle_medit_webhook payloadBadTs now2024 0 .missing false).outcome ≠
      WebhookOutcome.success ∧
    (handle_medit_webhook payloadBadTs now2024 0 .missing true).outcome =
      WebhookOutcome.uncaughtRaise telegramErr ∧
    (handle_medit_webhook payloadBadTs now2024 0 .missing true).sent = [] := by
  refine ⟨?_, rfl, rfl⟩
  have he : (handle_medit_webhook payloadBadTs now2024 0 .missing false).outcome =
      WebhookOutcome.httpError ("Internal server error: ValueError: Invalid isoformat string: " ++
        sQuote ++ "garbage" ++ sQuote) := rfl
  rw [he]
  intro h
  exact WebhookOutcome.noConfusion h

set_option maxRecDepth 100000 in
/-- C9: the capture-time fallback is broken in the code.  When a bare-case
payload supplies none of the recognised date fields, line 117 produces
`isoformat(...)+'Z'` on an aware datetime — a string carrying both a
`+00:00` offset and a trailing `Z`, which is not valid ISO-8601 — and
line 139 then fails to parse that very string, so the handler aborts with
HTTP 500 and stores nothing at all (instead of storing the receipt time). -/
theorem C9_fallback_broken :
    nowIso now2024 = "2024-06-01T10:00:00.000+00:00Z" ∧
    fromisoformat (pyReplace (nowIso now2024) "Z" "+00:00") = none ∧
    caseOccurredAt (.cons "name" (.str "A") .nil) now2024 = .str (nowIso now2024) ∧
    (handle_medit_webhook payloadNoDates now2024 0 .missing false).outcome =
      WebhookOutcome.httpError ("Internal server error: ValueError: Invalid isoformat string: " ++
        sQuote ++ "2024-06-01T10:00:00.000+00:00+00:00" ++ sQuote) ∧
    (handle_medit_webhook payloadNoDates now2024 0 .missing false).fileAfter =
      FileState.missing :=
  ⟨rfl, rfl, rfl, rfl, rfl⟩

set_option maxRecDepth 100000 in
/-- C10 counterexample: a bare-case payload whose case object has no name
(and a well-formed timestamp) is not persisted — but contrary to the
claim it is also not notified by any chat message: the handler returns
success having sent nothing (it only logs a warning at line 197). -/
theorem C10_counterexample :
    handle_medit_webhook payloadNameless now2024 0 .missing false =
      ⟨.success, .missing, []⟩ :=
  rfl

/-- C5: a `latest` invocation from a chat identity other than the
configured one replies with the refusal message verbatim, performs no
storage read, and leaves the history file untouched. -/
theorem C5_unauthorized (chatId admin : String) (fs : FileState) (tz : Int)
    (h : chatId ≠ admin) :
    latest_scans_command chatId admin fs tz = ⟨[refusalText], false, none, fs⟩ := by
  simp [latest_scans_command, h]

/-- C5 witness: a concrete unauthorized invocation. -/
theorem C5_unauthorized_witness :
    "999" ≠ "42" ∧
    latest_scans_command "999" "42" (.holds "[]") 0 =
      ⟨[refusalText], false, none, .holds "[]"⟩ :=
  ⟨by decide, C5_unauthorized "999" "42" (.holds "[]") 0 (by decide)⟩

/-- C8: `load_history` never raises in the modelled failure modes: a
missing backing file yields the empty list (no warning), and file
contents that fail to decode yield the empty list with the decode warning
logged. -/
theorem C8_load_never_raises :
    load_history .missing = (Json.arr .nil, false) ∧
    ∀ s : String, loads s = none → load_history (.holds s) = (Json.arr .nil, true) :=
  ⟨rfl, fun _ h => by simp [load_history, h]⟩

/-- C8 witness: concrete corrupt file contents. -/
theorem C8_load_never_raises_witness :
    loads "scan history !!" = none ∧
    load_history (.holds "scan history !!") = (Json.arr .nil, true) :=
  ⟨rfl, C8_load_never_raises.2 "scan history !!" rfl⟩

/-- C4: every JSON-object payload matching neither the bare-case shape nor
the order-wrapped shape is tagged unrecognized: the handler performs no
history mutation and sends exactly one operator notification embedding
the pretty-printed raw payload. -/
theorem C4_unrecognized (fields : JsonObj) (now : PyDateTime) (tz : Int)
    (fs : FileState)
    (hcase : caseShape (.obj fields) "case" = .ok none)
    (horder : caseShape (.obj fields) "order" = .ok none) :
    handle_medit_webhook (.obj fields) now tz fs false =
      ⟨.unrecognized, fs, [unrecText (.obj fields)]⟩ ∧
    unrecText (.obj fields) =
      "⚠️ **Увага:** Отримано нерозпізнану подію Medit.\n\n`" ++
        dumps2 (.obj fields) ++ "`" := by
  constructor
  · simp [handle_medit_webhook, hcase, horder]
  · rfl

/-- C4 witness: the empty object `\x7b\x7d`, whose notification contains the
literal text `\x7b\x7d`. -/
theorem C4_unrecognized_witness :
    caseShape (.obj .nil) "case" = .ok none ∧
    caseShape (.obj .nil) "order" = .ok none ∧
    handle_medit_webhook (.obj .nil) now2024 0 .missing false =
      ⟨.unrecognized, .missing, [unrecText (.obj .nil)]⟩ ∧
    dumps2 (.obj .nil) = String.mk [lbrace, rbrace] :=
  ⟨rfl, rfl, (C4_unrecognized .nil now2024 0 .missing rfl rfl).1, rfl⟩

/-- C6 amended: on an uncaught failure while formatting a recognised
bare-case event, the handler does not acknowledge with a success-shaped
response — it attempts one best-effort error notification whose text
embeds the failure detail and the pretty-printed raw payload and then
raises HTTP 500; and when that notification itself fails, the failure is
not swallowed: it propagates out of the handler with nothing delivered
(the history file is untouched either way). -/
theorem C6_amended (event : Json) (cd : JsonObj) (now : PyDateTime) (tz : Int)
    (fs : FileState) (e : String)
    (hshape : caseShape event "case" = .ok (some cd))
    (htime : formatLocalTime (caseOccurredAt cd now) tz = .error e) :
    handle_medit_webhook event now tz fs false =
      ⟨.httpError ("Internal server error: " ++ e), fs, [errText event e]⟩ ∧
    handle_medit_webhook event now tz fs true =
      ⟨.uncaughtRaise telegramErr, fs, []⟩ ∧
    errText event e =
      "❌ **Помилка при обробці вебхука Medit:**\n`" ++ e ++
        "`\n\n**Подія:**\n`" ++ dumps2 event ++ "`" := by
  refine ⟨?_, ?_, rfl⟩
  · simp [handle_medit_webhook, hshape, caseBranch, htime, exceptPath]
  · simp [handle_medit_webhook, hshape, caseBranch, htime, exceptPath]

set_option maxRecDepth 100000 in
/-- C6 amended witness: the concrete malformed-timestamp payload. -/
theorem C6_amended_witness :
    caseShape payloadBadTs "case" =
      .ok (some (.cons "name" (.str "C") (.cons "dateScanned" (.str "garbage") .nil))) ∧
    formatLocalTime
      (caseOccurredAt (.cons "name" (.str "C") (.cons "dateScanned" (.str "garbage") .nil)) now2024) 0 =
      .error ("ValueError: Invalid isoformat string: " ++ sQuote ++ "garbage" ++ sQuote) ∧
    handle_medit_webhook payloadBadTs now2024 0 .missing true =
      ⟨.uncaughtRaise telegramErr, .missing, []⟩ :=
  ⟨rfl, rfl,
    (C6_amended payloadBadTs
      (.cons "name" (.str "C") (.cons "dateScanned" (.str "garbage") .nil))
      now2024 0 .missing
      ("ValueError: Invalid isoformat string: " ++ sQuote ++ "garbage" ++ sQuote)
      rfl rfl).2.1⟩

/-- C10 amended: a recognised payload (bare-case or order-wrapped) whose
case yields no truthy case name is never persisted, and — provided the
notification text was built without raising — the handler sends no chat
message at all: it returns success having only logged a warning. -/
theorem C10_amended :
    (∀ (event : Json) (cd : JsonObj) (now : PyDateTime) (tz : Int)
      (fs : FileState) (tm : String),
      caseShape event "case" = .ok (some cd) →
      optTruthy (jGet cd "name") = false →
      formatLocalTime (caseOccurredAt cd now) tz = .ok tm →
      handle_medit_webhook event now tz fs false = ⟨.success, fs, []⟩) ∧
    (∀ (event : Json) (od : JsonObj) (now : PyDateTime) (tz : Int)
      (fs : FileState) (sn tm : String),
      caseShape event "case" = .ok none →
      caseShape event "order" = .ok (some od) →
      optTruthy (orderCaseName od) = false →
      sellerName od = .ok sn →
      formatLocalTime (orderOccurredAt od now) tz = .ok tm →
      handle_medit_webhook event now tz fs false = ⟨.success, fs, []⟩) := by
  constructor
  · intro event cd now tz fs tm hshape hname htime
    simp [handle_medit_webhook, hshape, caseBranch, htime, recordAndNotify, hname]
  · intro event od now tz fs sn tm hcase horder hname hseller htime
    simp [handle_medit_webhook, hcase, horder, orderBranch, hseller, htime,
      recordAndNotify, hname]

set_option maxRecDepth 100000 in
/-- C10 amended witness: the concrete nameless bare-case payload. -/
theorem C10_amended_witness :
    caseShape payloadNameless "case" =
      .ok (some (.cons "dateScanned" (.str "2024-01-01T10:00:00Z") .nil)) ∧
    optTruthy (jGet (.cons "dateScanned" (.str "2024-01-01T10:00:00Z") .nil) "name") = false ∧
    formatLocalTime
      (caseOccurredAt (.cons "dateScanned" (.str "2024-01-01T10:00:00Z") .nil) now2024) 0 =
      .ok "2024-01-01 10:00:00" ∧
    handle_medit_webhook payloadNameless now2024 0 .missing false =
      ⟨.success, .missing, []⟩ :=
  ⟨rfl, rfl, rfl,
    C10_amended.1 payloadNameless
      (.cons "dateScanned" (.str "2024-01-01T10:00:00Z") .nil)
      now2024 0 .missing "2024-01-01 10:00:00" rfl rfl rfl⟩

theorem sw_space (r : List Char) : skipWs (' ' :: r) = skipWs r := rfl

theorem sw_nl (r : List Char) : skipWs ('\n' :: r) = skipWs r := rfl

theorem sw_spaces : ∀ (n : Nat) (r : List Char), skipWs (nSpaces n ++ r) = skipWs r
  | 0, _ => rfl
  | n + 1, r => by
    rw [nSpaces, List.replicate_succ, List.cons_append, sw_space]
    exact sw_spaces n r

theorem sw_quote (r : List Char) : skipWs ('"' :: r) = '"' :: r := rfl

theorem sw_lbrace (r : List Char) : skipWs (lbrace :: r) = lbrace :: r := rfl

theorem sw_rbrace (r : List Char) : skipWs (rbrace :: r) = rbrace :: r := rfl

theorem sw_colon (r : List Char) : skipWs (':' :: r) = ':' :: r := rfl

theorem sw_comma (r : List Char) : skipWs (',' :: r) = ',' :: r := rfl

theorem sw_rbrack (r : List Char) : skipWs (']' :: r) = ']' :: r := rfl

theorem hexVal_hexDigitChar : ∀ n < 16, hexVal (hexDigitChar n) = some n := by decide

theorem parseValue_ws (fuel : Nat) (cs cs' : List Char)
    (h : skipWs cs = skipWs cs') :
    parseValue (fuel + 1) cs = parseValue (fuel + 1) cs' := by
  simp only [parseValue, h]

theorem psb_backslash (X : List Char) : parseStringBody ('\\' :: X) = parseEsc X := by
  simp [parseStringBody]

theorem pesc_u (X : List Char) : parseEsc ('u' :: X) = parseHex4 X := by
  simp [parseEsc]

theorem parseStringBody_escape : ∀ (s r : List Char),
    parseStringBody (escapeStr s ++ ('"' :: r)) = some (s, r) := by
  intro s
  induction s with
  | nil => intro r; rfl
  | cons c cs ih =>
    intro r
    show parseStringBody ((escapeChar c ++ escapeStr cs) ++ ('"' :: r)) = _
    rw [List.append_assoc]
    by_cases h1 : c = '"'
    · subst h1; simp [escapeChar, parseStringBody, parseEsc, consFst, ih]
    by_cases h2 : c = '\\'
    · subst h2; simp [escapeChar, parseStringBody, parseEsc, consFst, ih]
    by_cases h3 : c = '\n'
    · subst h3; simp [escapeChar, parseStringBody, parseEsc, consFst, ih]
    by_cases h4 : c = '\r'
    · subst h4; simp [escapeChar, parseStringBody, parseEsc, consFst, ih]
    by_cases h5 : c = '\t'
    · subst h5; simp [escapeChar, parseStringBody, parseEsc, consFst, ih]
    by_cases h6 : c = Char.ofNat 8
    · subst h6; simp [escapeChar, parseStringBody, parseEsc, consFst, ih]
    by_cases h7 : c = Char.ofNat 12
    · subst h7; simp [escapeChar, parseStringBody, parseEsc, consFst, ih]
    by_cases h8 : c.toNat < 32
    · have ha : hexVal (hexDigitChar (c.toNat / 16)) = some (c.toNat / 16) :=
        hexVal_hexDigitChar _ (by omega)
      have hb : hexVal (hexDigitChar (c.toNat % 16)) = some (c.toNat % 16) :=
        hexVal_hexDigitChar _ (by omega)
      have hv0 : hexVal '0' = some 0 := rfl
      have hesc : escapeChar c =
          ['\\', 'u', '0', '0', hexDigitChar (c.toNat / 16), hexDigitChar (c.toNat % 16)] := by
        simp [escapeChar, h1, h2, h3, h4, h5, h6, h7, h8]
      rw [hesc]
      simp only [List.cons_append, List.nil_append]
      rw [psb_backslash, pesc_u]
      simp only [parseHex4, hv0, ha, hb]
      have hn : ((0 * 16 + 0) * 16 + c.toNat / 16) * 16 + c.toNat % 16 = c.toNat := by
        omega
      rw [hn, if_neg (by omega), ih, Char.ofNat_toNat]
      rfl
    · simp [escapeChar, h1, h2, h3, h4, h5, h6, h7, h8, parseStringBody, parseEsc, consFst, ih]

theorem parseValue_str (fuel lvl : Nat) (s : String) (r : List Char) :
    parseValue (fuel + 1) (dumpsV 4 (.str s) lvl ++ r) = some (.str s, r) := by
  have h : dumpsV 4 (.str s) lvl ++ r = '"' :: (escapeStr s.data ++ ('"' :: r)) := by
    show ('"' :: (escapeStr s.data ++ ['"'])) ++ r = _
    simp [List.append_assoc]
  rw [h]
  simp only [parseValue, sw_quote]
  simp [parseStringBody_escape]

theorem parseValue_null (fuel lvl : Nat) (r : List Char) :
    parseValue (fuel + 1) (dumpsV 4 .null lvl ++ r) = some (.null, r) := rfl

theorem parseValue_objStep (f : Nat) (X Y : List Char) (h : skipWs X = '"' :: Y) :
    parseValue (f + 1) (lbrace :: X) = parseMembers f .nil X := by
  simp only [parseValue, sw_lbrace, h]
  rw [if_neg (show ¬(lbrace = '"') from by decide),
    if_neg (show ¬('"' = rbrace) from by decide), if_pos trivial]

theorem pm_step_more (fuel : Nat) (acc : JsonObj) (k : String) (v : Json)
    (vchars M : List Char)
    (hv : ∀ (f : Nat) (rr : List Char), parseValue (f + 1) (vchars ++ rr) = some (v, rr)) :
    parseMembers (fuel + 2) acc
      ('\n' :: (nSpaces 8 ++ ('"' :: (escapeStr k.data ++
        ('"' :: ':' :: ' ' :: (vchars ++ (',' :: ('\n' :: (nSpaces 8 ++ M)))))))))
      = parseMembers (fuel + 1) (insertKey acc k v) ('\n' :: (nSpaces 8 ++ M)) := by
  have hsw : skipWs ('\n' :: (nSpaces 8 ++ ('"' :: (escapeStr k.data ++
      ('"' :: ':' :: ' ' :: (vchars ++ (',' :: ('\n' :: (nSpaces 8 ++ M))))))))) =
      '"' :: (escapeStr k.data ++
        ('"' :: ':' :: ' ' :: (vchars ++ (',' :: ('\n' :: (nSpaces 8 ++ M)))))) := by
    rw [sw_nl, sw_spaces, sw_quote]
  have hshift : parseValue (fuel + 1) (' ' :: (vchars ++ (',' :: ('\n' :: (nSpaces 8 ++ M))))) =
      some (v, ',' :: ('\n' :: (nSpaces 8 ++ M))) := by
    rw [parseValue_ws _ _ _ (sw_space _), hv]
  simp only [parseMembers, hsw, parseStringBody_escape, sw_colon, sw_comma, hshift]
  simp

theorem pm_step_last (fuel : Nat) (acc : JsonObj) (k : String) (v : Json)
    (vchars r : List Char)
    (hv : ∀ (f : Nat) (rr : List Char), parseValue (f + 1) (vchars ++ rr) = some (v, rr)) :
    parseMembers (fuel + 2) acc
      ('\n' :: (nSpaces 8 ++ ('"' :: (escapeStr k.data ++
        ('"' :: ':' :: ' ' :: (vchars ++ ('\n' :: (nSpaces 4 ++ (rbrace :: r)))))))))
      = some (.obj (insertKey acc k v), r) := by
  have hsw : skipWs ('\n' :: (nSpaces 8 ++ ('"' :: (escapeStr k.data ++
      ('"' :: ':' :: ' ' :: (vchars ++ ('\n' :: (nSpaces 4 ++ (rbrace :: r))))))))) =
      '"' :: (escapeStr k.data ++
        ('"' :: ':' :: ' ' :: (vchars ++ ('\n' :: (nSpaces 4 ++ (rbrace :: r)))))) := by
    rw [sw_nl, sw_spaces, sw_quote]
  have hshift : parseValue (fuel + 1) (' ' :: (vchars ++ ('\n' :: (nSpaces 4 ++ (rbrace :: r))))) =
      some (v, '\n' :: (nSpaces 4 ++ (rbrace :: r))) := by
    rw [parseValue_ws _ _ _ (sw_space _), hv]
  have hsw2 : skipWs ('\n' :: (nSpaces 4 ++ (rbrace :: r))) = rbrace :: r := by
    rw [sw_nl, sw_spaces, sw_rbrace]
  simp only [parseMembers, hsw, parseStringBody_escape, sw_colon, hshift, hsw2]
  rw [if_neg (show ¬(rbrace = ',') from by decide)]
  simp

theorem parseValue_strI (f : Nat) (s : String) (rr : List Char) :
    parseValue (f + 1) ('"' :: (escapeStr s.data ++ ('"' :: rr))) = some (.str s, rr) := by
  have h : '"' :: (escapeStr s.data ++ ('"' :: rr)) = dumpsV 4 (.str s) 2 ++ rr := by
    show _ = ('"' :: (escapeStr s.data ++ ['"'])) ++ rr
    simp
  rw [h, parseValue_str]

theorem pm_str_more (f : Nat) (acc : JsonObj) (k s : String) (M : List Char) :
    parseMembers (f + 2) acc
      ('\n' :: (nSpaces 8 ++ ('"' :: (escapeStr k.data ++
        ('"' :: ':' :: ' ' :: '"' :: (escapeStr s.data ++
          ('"' :: (',' :: ('\n' :: (nSpaces 8 ++ M))))))))))
      = parseMembers (f + 1) (insertKey acc k (.str s)) ('\n' :: (nSpaces 8 ++ M)) := by
  have hsw : skipWs ('\n' :: (nSpaces 8 ++ ('"' :: (escapeStr k.data ++
      ('"' :: ':' :: ' ' :: '"' :: (escapeStr s.data ++
        ('"' :: (',' :: ('\n' :: (nSpaces 8 ++ M)))))))))) =
      '"' :: (escapeStr k.data ++
        ('"' :: ':' :: ' ' :: '"' :: (escapeStr s.data ++
          ('"' :: (',' :: ('\n' :: (nSpaces 8 ++ M))))))) := by
    rw [sw_nl, sw_spaces, sw_quote]
  have hshift : parseValue (f + 1) (' ' :: '"' :: (escapeStr s.data ++
      ('"' :: (',' :: ('\n' :: (nSpaces 8 ++ M)))))) =
      some (.str s, ',' :: ('\n' :: (nSpaces 8 ++ M))) := by
    rw [parseValue_ws _ _ _ (sw_space _), parseValue_strI]
  simp only [parseMembers, hsw, parseStringBody_escape, sw_colon, sw_comma, hshift]
  simp

theorem pm_str_last (f : Nat) (acc : JsonObj) (k s : String) (r : List Char) :
    parseMembers (f + 2) acc
      ('\n' :: (nSpaces 8 ++ ('"' :: (escapeStr k.data ++
        ('"' :: ':' :: ' ' :: '"' :: (escapeStr s.data ++
          ('"' :: ('\n' :: (nSpaces 4 ++ (rbrace :: r))))))))))
      = some (.obj (insertKey acc k (.str s)), r) := by
  have hsw : skipWs ('\n' :: (nSpaces 8 ++ ('"' :: (escapeStr k.data ++
      ('"' :: ':' :: ' ' :: '"' :: (escapeStr s.data ++
        ('"' :: ('\n' :: (nSpaces 4 ++ (rbrace :: r)))))))))) =
      '"' :: (escapeStr k.data ++
        ('"' :: ':' :: ' ' :: '"' :: (escapeStr s.data ++
          ('"' :: ('\n' :: (nSpaces 4 ++ (rbrace :: r))))))) := by
    rw [sw_nl, sw_spaces, sw_quote]
  have hshift : parseValue (f + 1) (' ' :: '"' :: (escapeStr s.data ++
      ('"' :: ('\n' :: (nSpaces 4 ++ (rbrace :: r)))))) =
      some (.str s, '\n' :: (nSpaces 4 ++ (rbrace :: r))) := by
    rw [parseValue_ws _ _ _ (sw_space _), parseValue_strI]
  have hsw2 : skipWs ('\n' :: (nSpaces 4 ++ (rbrace :: r))) = rbrace :: r := by
    rw [sw_nl, sw_spaces, sw_rbrace]
  simp only [parseMembers, hsw, parseStringBody_escape, sw_colon, hshift, hsw2]
  rw [if_neg (show ¬(rbrace = ',') from by decide)]
  simp

theorem parseValue_entry_gen (fuel : Nat) (c o : String) (pv : Json) (r : List Char)
    (hv : ∀ (f : Nat) (rr : List Char),
      parseValue (f + 1) (dumpsV 4 pv 2 ++ rr) = some (pv, rr)) :
    parseValue (fuel + 5)
      (dumpsV 4 (.obj (.cons "caseName" (.str c)
        (.cons "patientName" pv (.cons "occurredAt" (.str o) .nil)))) 1 ++ r)
      = some (.obj (.cons "caseName" (.str c)
          (.cons "patientName" pv (.cons "occurredAt" (.str o) .nil))), r) := by
  have hsplit : dumpsV 4 (.obj (.cons "caseName" (.str c)
      (.cons "patientName" pv (.cons "occurredAt" (.str o) .nil)))) 1 ++ r
      = lbrace :: ('\n' :: (nSpaces 8 ++ ('"' :: (escapeStr "caseName".data ++ ('"' :: ':' :: ' ' :: '"' :: (escapeStr c.data ++ ('"' :: (',' :: ('\n' :: (nSpaces 8 ++ ('"' :: (escapeStr "patientName".data ++ ('"' :: ':' :: ' ' :: (dumpsV 4 pv 2 ++ (',' :: ('\n' :: (nSpaces 8 ++ ('"' :: (escapeStr "occurredAt".data ++ ('"' :: ':' :: ' ' :: '"' :: (escapeStr o.data ++ ('"' :: ('\n' :: (nSpaces 4 ++ (rbrace :: r))))))))))))))))))))))))) := by
    simp [dumpsV, dumpsMembers]
  rw [hsplit, show fuel + 5 = (fuel + 4) + 1 from rfl,
    parseValue_objStep (fuel + 4) _ _ (by rw [sw_nl, sw_spaces, sw_quote]),
    show fuel + 4 = (fuel + 2) + 2 from rfl,
    pm_str_more (fuel + 2),
    show (fuel + 2) + 1 = (fuel + 1) + 2 from rfl,
    pm_step_more (fuel + 1) _ "patientName" pv _ _ hv,
    show (fuel + 1) + 1 = fuel + 2 from rfl,
    pm_str_last fuel]
  rfl

theorem hv_entryPv (p : Option String) : ∀ (f : Nat) (rr : List Char),
    parseValue (f + 1) (dumpsV 4 ((p.map Json.str).getD Json.null) 2 ++ rr)
      = some ((p.map Json.str).getD Json.null, rr) := by
  cases p with
  | none => intro f rr; exact parseValue_null f 2 rr
  | some ps => intro f rr; exact parseValue_str f 2 ps rr

theorem parseValue_encodeEntry (fuel : Nat) (E : HistEntry) (r : List Char) :
    parseValue (fuel + 5) (dumpsV 4 (encodeEntry E) 1 ++ r) = some (encodeEntry E, r) :=
  parseValue_entry_gen fuel E.caseName E.occurredAt
    ((E.patientName.map Json.str).getD Json.null) r (hv_entryPv E.patientName)

theorem parseValue_nlsp (f n : Nat) (X : List Char) :
    parseValue (f + 1) ('\n' :: (nSpaces n ++ X)) = parseValue (f + 1) X :=
  parseValue_ws f _ X (by rw [sw_nl, sw_spaces])

theorem parseItems_entries (es : List HistEntry) :
    ∀ (E : HistEntry) (fuel : Nat) (r : List Char),
    parseItems (fuel + 6 * es.length + 6)
      ('\n' :: (nSpaces 4 ++ (dumpsItems 4 (ofList ((E :: es).map encodeEntry)) 1 ++
        ('\n' :: (']' :: r)))))
      = some (ofList ((E :: es).map encodeEntry), r) := by
  induction es with
  | nil =>
    intro E fuel r
    rw [show fuel + 6 * ([] : List HistEntry).length + 6 = (fuel + 5) + 1 from by simp]
    simp only [List.map_cons, List.map_nil, ofList, dumpsItems]
    simp only [parseItems]
    have hpv : parseValue (fuel + 5)
        ('\n' :: (nSpaces 4 ++ (dumpsV 4 (encodeEntry E) 1 ++ ('\n' :: (']' :: r))))) =
        some (encodeEntry E, '\n' :: (']' :: r)) := by
      rw [show fuel + 5 = (fuel + 4) + 1 from rfl, parseValue_nlsp,
        show (fuel + 4) + 1 = fuel + 5 from rfl, parseValue_encodeEntry]
    rw [hpv]
    have hsw : skipWs ('\n' :: (']' :: r)) = ']' :: r := by rw [sw_nl, sw_rbrack]
    simp [hsw]
  | cons E2 es ih =>
    intro E fuel r
    rw [show fuel + 6 * ((E2 :: es) : List HistEntry).length + 6 =
      (fuel + 6 * es.length + 11) + 1 from by simp [List.length_cons]; omega]
    simp only [List.map_cons, ofList, dumpsItems]
    simp only [List.append_assoc, List.cons_append]
    rw [parseItems]
    have hpv : parseValue (fuel + 6 * es.length + 11)
        ('\n' :: (nSpaces 4 ++ (dumpsV 4 (encodeEntry E) 1 ++ (',' :: '\n' ::
          (nSpaces (1 * 4) ++ (dumpsItems 4 (.cons (encodeEntry E2) (ofList (es.map encodeEntry))) 1 ++
            ('\n' :: (']' :: r)))))))) =
        some (encodeEntry E, ',' :: '\n' ::
          (nSpaces (1 * 4) ++ (dumpsItems 4 (.cons (encodeEntry E2) (ofList (es.map encodeEntry))) 1 ++
            ('\n' :: (']' :: r))))) := by
      rw [show fuel + 6 * es.length + 11 = (fuel + 6 * es.length + 10) + 1 from rfl,
        parseValue_nlsp,
        show (fuel + 6 * es.length + 10) + 1 = (fuel + 6 * es.length + 6) + 5 from by omega,
        parseValue_encodeEntry]
    rw [hpv]
    have ih2 := ih E2 (fuel + 5) r
    simp only [List.map_cons, ofList] at ih2
    rw [show (1 : Nat) * 4 = 4 from rfl]
    simp [sw_comma, show fuel + 6 * es.length + 11 = fuel + 5 + 6 * es.length + 6 from by omega,
      ih2]

theorem sw_lbrack (r : List Char) : skipWs ('[' :: r) = '[' :: r := rfl

theorem parseValue_arrStep (f : Nat) (X Y : List Char) (h : skipWs X = lbrace :: Y) :
    parseValue (f + 1) ('[' :: X) =
      (match parseItems f X with
       | some (vs, r3) => some (.arr vs, r3)
       | none => none) := by
  simp only [parseValue, sw_lbrack, h]
  rw [if_neg (show ¬('[' = '"') from by decide),
    if_neg (show ¬('[' = lbrace) from by decide), if_pos trivial,
    if_neg (show ¬(lbrace = ']') from by decide)]

theorem dumpsItems_entries_head (E : HistEntry) (es : List HistEntry) :
    ∃ T, dumpsItems 4 (.cons (encodeEntry E) (ofList (es.map encodeEntry))) 1 =
      lbrace :: T := by
  cases es with
  | nil => exact ⟨_, rfl⟩
  | cons E2 es2 => exact ⟨_, rfl⟩

theorem parseValue_entriesTop (E : HistEntry) (es : List HistEntry) (fuel : Nat)
    (r : List Char) :
    parseValue ((fuel + 6 * es.length + 12) + 1)
      (dumpsV 4 (.arr (.cons (encodeEntry E) (ofList (es.map encodeEntry)))) 0 ++ r)
      = some (.arr (.cons (encodeEntry E) (ofList (es.map encodeEntry))), r) := by
  have hsplit : dumpsV 4 (.arr (.cons (encodeEntry E) (ofList (es.map encodeEntry)))) 0 ++ r =
      '[' :: ('\n' :: (nSpaces 4 ++
        (dumpsItems 4 (.cons (encodeEntry E) (ofList (es.map encodeEntry))) 1 ++
          ('\n' :: (']' :: r))))) := by
    simp [dumpsV, nSpaces]
  rw [hsplit]
  obtain ⟨T, hT⟩ := dumpsItems_entries_head E es
  rw [parseValue_arrStep _ _ (T ++ ('\n' :: (']' :: r)))
    (by rw [sw_nl, sw_spaces, hT, List.cons_append, sw_lbrace])]
  have hitems := parseItems_entries es E (fuel + 6) r
  simp only [List.map_cons, ofList] at hitems
  rw [show fuel + 6 * es.length + 12 = (fuel + 6) + 6 * es.length + 6 from by omega, hitems]

theorem entry_chars_shape (E : HistEntry) :
    dumpsV 4 (encodeEntry E) 1 =
      lbrace :: ('\n' :: (nSpaces 8 ++
        (dumpsMembers 4 (.cons "caseName" (.str E.caseName)
          (.cons "patientName" ((E.patientName.map Json.str).getD Json.null)
            (.cons "occurredAt" (.str E.occurredAt) .nil))) 2 ++
          ('\n' :: (nSpaces 4 ++ [rbrace]))))) := rfl

theorem entry_chars_len (E : HistEntry) : 6 ≤ (dumpsV 4 (encodeEntry E) 1).length := by
  rw [entry_chars_shape]
  simp [nSpaces]

theorem items_chars_len (es : List HistEntry) : ∀ (E : HistEntry),
    6 * es.length + 6 ≤
      (dumpsItems 4 (.cons (encodeEntry E) (ofList (es.map encodeEntry))) 1).length := by
  induction es with
  | nil =>
    intro E
    simpa [dumpsItems] using entry_chars_len E
  | cons E2 es ih =>
    intro E
    have h1 := entry_chars_len E
    have h2 := ih E2
    simp only [List.map_cons, ofList] at h2 ⊢
    simp only [dumpsItems, List.length_append, List.length_cons, nSpaces,
      List.length_replicate, List.length_nil]
    omega

theorem top_chars_shape (E : HistEntry) (es : List HistEntry) :
    dumpsV 4 (.arr (.cons (encodeEntry E) (ofList (es.map encodeEntry)))) 0 =
      '[' :: ('\n' :: (nSpaces 4 ++
        (dumpsItems 4 (.cons (encodeEntry E) (ofList (es.map encodeEntry))) 1 ++
          ('\n' :: (nSpaces 0 ++ [']']))))) := rfl

theorem top_chars_len (E : HistEntry) (es : List HistEntry) :
    6 * es.length + 13 ≤
      (dumpsV 4 (.arr (.cons (encodeEntry E) (ofList (es.map encodeEntry)))) 0).length + 1 := by
  rw [top_chars_shape]
  have h := items_chars_len es E
  simp only [List.length_cons, List.length_append, nSpaces, List.length_replicate,
    List.length_nil]
  omega

theorem loads_mk (cs : List Char) :
    loads (String.mk cs) =
      (match parseValue (cs.length + 1) cs with
       | some (j, r) =>
         (match skipWs r with
          | [] => some j
          | _ :: _ => none)
       | none => none) := rfl

theorem loads_save_entries (L : List HistEntry) :
    loads (save_history (L.map encodeEntry)) = some (.arr (ofList (L.map encodeEntry))) := by
  cases L with
  | nil => rfl
  | cons E es =>
    simp only [save_history, List.map_cons, ofList]
    rw [loads_mk]
    have htop := parseValue_entriesTop E es
      ((dumpsV 4 (.arr (.cons (encodeEntry E) (ofList (es.map encodeEntry)))) 0).length + 1
        - (6 * es.length + 13)) []
    rw [List.append_nil] at htop
    have hlen := top_chars_len E es
    rw [show ((dumpsV 4 (.arr (.cons (encodeEntry E) (ofList (es.map encodeEntry)))) 0).length + 1
        - (6 * es.length + 13) + 6 * es.length + 12) + 1 =
      (dumpsV 4 (.arr (.cons (encodeEntry E) (ofList (es.map encodeEntry)))) 0).length + 1
      from by omega] at htop
    rw [htop]
    rfl

/-- C7: loading back a saved history list reproduces it exactly —
`load(save(L)) = L` for every typed history list `L` with at most 5
entries (arbitrary strings, patient possibly absent), with no decode
warning. -/
theorem C7_roundtrip (L : List HistEntry) (hlen : L.length ≤ 5) :
    load_history (.holds (save_history (L.map encodeEntry))) =
      (.arr (ofList (L.map encodeEntry)), false) := by
  simp [load_history, loads_save_entries L]

/-- C7 witness: a concrete two-entry list whose strings need escaping. -/
theorem C7_roundtrip_witness :
    ([⟨"A\"B\\C\nD", some "P", "2024-01-01T10:00:00Z"⟩,
      ⟨"E", none, "t"⟩] : List HistEntry).length ≤ 5 ∧
    load_history (.holds (save_history
      (([⟨"A\"B\\C\nD", some "P", "2024-01-01T10:00:00Z"⟩,
         ⟨"E", none, "t"⟩] : List HistEntry).map encodeEntry))) =
      (.arr (ofList (([⟨"A\"B\\C\nD", some "P", "2024-01-01T10:00:00Z"⟩,
         ⟨"E", none, "t"⟩] : List HistEntry).map encodeEntry)), false) :=
  ⟨by decide, C7_roundtrip _ (by decide)⟩

/-- C2 amended: the graceful degradation holds in the history listing, not
in the webhook handler.  For any stored entry whose `occurredAt` is a
non-empty string that fails to parse, an authorized `latest` invocation
still produces the full listing, rendering that entry's time as the
placeholder "Невідомий час", without raising and without touching the
file. -/
theorem C2_amended (c p ts : String) (admin : String) (tz : Int)
    (hne : ts ≠ "")
    (hbad : fromisoformat (pyReplace ts "Z" "+00:00") = none) :
    latest_scans_command admin admin
      (.holds (save_history ([(⟨c, some p, ts⟩ : HistEntry)].map encodeEntry))) tz =
      ⟨[String.intercalate "\n"
          [listingHeader, listingLine 1 (.str c) (.str p) "Невідомий час"]],
        true, none,
        .holds (save_history ([(⟨c, some p, ts⟩ : HistEntry)].map encodeEntry))⟩ := by
  have hload : load_history
      (.holds (save_history ([(⟨c, some p, ts⟩ : HistEntry)].map encodeEntry))) =
      (.arr (.cons (.obj (.cons "caseName" (.str c)
        (.cons "patientName" (.str p) (.cons "occurredAt" (.str ts) .nil)))) .nil),
       false) := by
    have h := loads_save_entries [(⟨c, some p, ts⟩ : HistEntry)]
    simp only [List.map_cons, List.map_nil, ofList] at h
    simp [load_history, h]
    rfl
  unfold latest_scans_command
  rw [if_pos rfl, hload]
  simp only [pyTruthy, JsonList.toList, formatScans, scanFormattedDate, jGet, jGetD]
  simp [hne, hbad, listingLine, jGet]

set_option maxRecDepth 100000 in
/-- C2 amended witness: a stored entry with timestamp "garbage". -/
theorem C2_amended_witness :
    "garbage" ≠ "" ∧
    fromisoformat (pyReplace "garbage" "Z" "+00:00") = none ∧
    latest_scans_command "42" "42"
      (.holds (save_history ([(⟨"C", some "P", "garbage"⟩ : HistEntry)].map encodeEntry))) 0 =
      ⟨[String.intercalate "\n"
          [listingHeader, listingLine 1 (.str "C") (.str "P") "Невідомий час"]],
        true, none,
        .holds (save_history ([(⟨"C", some "P", "garbage"⟩ : HistEntry)].map encodeEntry))⟩ :=
  ⟨by decide, rfl, C2_amended "C" "P" "garbage" "42" 0 (by decide) rfl⟩
